import Mathlib

/-!
Verification development for the runtime-extension registry and the
ExtensionConfig reconciler of the cluster-api repository.

The registry (`extensionRegistry` in the source) is a map from handler name
to `ExtensionRegistration` plus a readiness flag.  All Go-map state is
modelled as a `List ExtensionRegistration`: the Go map is keyed by
`registration.Name` at every write site, so the name is the key.
The reconciler (`Reconciler.Reconcile`) is modelled as a pure function of an
environment that supplies the results of the external collaborators
(object fetch, secret fetch, discovery call, patch).
-/

namespace ClusterAPI

/-- A (group, version, hook) triple identifying a runtime hook
(`runtimecatalog.GroupVersionHook`). -/
structure GroupVersionHook where
  group : String
  version : String
  hook : String
deriving DecidableEq, Repr

/-- A (group, hook) pair used as the `List` filter
(`runtimecatalog.GroupHook`). -/
structure GroupHook where
  group : String
  hook : String
deriving DecidableEq, Repr

/-- The hook a handler serves, as declared in an ExtensionConfig's status:
an unparsed API-version string plus a hook name
(`runtimev1.GroupVersionHook` inside `ExtensionHandler.RequestHook`). -/
structure RequestHook where
  apiVersion : String
  hook : String
deriving DecidableEq, Repr

/-- One handler descriptor from `ExtensionConfig.Status.Handlers`. -/
structure ExtensionHandler where
  name : String
  requestHook : RequestHook
  timeoutSeconds : Option Int
  failurePolicy : Option String
deriving DecidableEq, Repr

/-- Connection configuration (`runtimev1.ClientConfig`); only the fields the
core reads or writes are modelled. -/
structure ClientConfig where
  url : Option String
  caBundle : Option String
deriving DecidableEq, Repr

/-- A status condition with type, boolean status and message. -/
structure Condition where
  condType : String
  condStatus : Bool
  message : String
deriving DecidableEq, Repr

/-- An `ExtensionConfig` object, with the fields the registry and reconciler
read: name, annotations, spec.clientConfig, status.handlers, conditions, and
the paused / deletion markers checked by the reconciler. -/
structure ExtensionConfig where
  name : String
  annotations : List (String × String)
  clientConfig : ClientConfig
  handlers : List ExtensionHandler
  conditions : List Condition
  paused : Bool
  deleted : Bool
deriving DecidableEq, Repr

/-- A registry entry (`ExtensionRegistration`). -/
structure ExtensionRegistration where
  name : String
  extensionConfigName : String
  groupVersionHook : GroupVersionHook
  clientConfig : ClientConfig
  timeoutSeconds : Option Int
  failurePolicy : Option String
deriving DecidableEq, Repr

/-- Errors returned by registry operations, by kind. -/
inductive RegistryError where
  | invalidArgument (msg : String)
  | invalidOperation (msg : String)
  | notFound (name : String)
  | aggregate (msgs : List String)
deriving DecidableEq, Repr

/-- The registry state: readiness flag plus the item map, modelled as a list
of registrations keyed by their `name` field (the Go map is always written
with key `registration.Name`). -/
structure RegistryState where
  ready : Bool
  items : List ExtensionRegistration
deriving DecidableEq, Repr

/-- `New()`: a cold registry with an empty map. -/
def newRegistry : RegistryState := { ready := false, items := [] }

/-- Number of slash characters in a string. -/
def slashCount (s : String) : Nat :=
  (s.toList.filter (fun c => decide (c = '/'))).length

/-- Split a string at the first slash: contents before it and after it. -/
def splitAtFirstSlash (s : String) : String × String :=
  match s.toList.span (fun c => decide (c ≠ '/')) with
  | (pre, []) => (String.mk pre, "")
  | (pre, _ :: post) => (String.mk pre, String.mk post)

/-- `schema.ParseGroupVersion` from k8s.io/apimachinery (external dependency
called by `extensionRegistry.add`): "" and "/" parse to the empty
group/version; no slash means version only; one slash splits into
group/version; two or more slashes are an error (`none`). -/
def parseGroupVersion (s : String) : Option (String × String) :=
  if s.length = 0 ∨ s = "/" then some ("", "")
  else
    match slashCount s with
    | 0 => some ("", s)
    | 1 => some (splitAtFirstSlash s)
    | _ => none

/-- Look a registration up by name (Go map read `r.items[name]`). -/
def lookupReg (items : List ExtensionRegistration) (n : String) :
    Option ExtensionRegistration :=
  items.find? (fun e => decide (e.name = n))

/-- Go map write `r.items[registration.Name] = registration`: replace the
entry with the same name in place, or append a new entry. -/
def insertReg (items : List ExtensionRegistration) (r : ExtensionRegistration) :
    List ExtensionRegistration :=
  if items.any (fun e => decide (e.name = r.name)) then
    items.map (fun e => if e.name = r.name then r else e)
  else
    items ++ [r]

/-- `extensionRegistry.remove`: delete every registration whose owning config
name equals `cfgName` (the Go loop deletes key `e.Name` for each matching
entry `e`; keys equal the entries' names). -/
def removeOwned (items : List ExtensionRegistration) (cfgName : String) :
    List ExtensionRegistration :=
  items.filter (fun e => decide (¬ e.extensionConfigName = cfgName))

/-- Build the registration for one handler of `cfg`, or `none` when the
handler's API-version string does not parse (loop body of
`extensionRegistry.add`). -/
def buildRegistration (cfg : ExtensionConfig) (e : ExtensionHandler) :
    Option ExtensionRegistration :=
  match parseGroupVersion e.requestHook.apiVersion with
  | none => none
  | some gv =>
    some
      { name := e.name
        extensionConfigName := cfg.name
        groupVersionHook :=
          { group := gv.1, version := gv.2, hook := e.requestHook.hook }
        clientConfig := cfg.clientConfig
        timeoutSeconds := e.timeoutSeconds
        failurePolicy := e.failurePolicy }

/-- The API-version strings of `cfg`'s handlers that fail to parse
(the aggregated error payload of `extensionRegistry.add`). -/
def badAPIVersions (cfg : ExtensionConfig) : List String :=
  cfg.handlers.filterMap
    (fun e =>
      if (parseGroupVersion e.requestHook.apiVersion).isNone then
        some e.requestHook.apiVersion
      else none)

/-- `extensionRegistry.add` (the unexported method): first remove every
registration owned by `cfg.name`, then parse every handler; if any parse
fails, return the aggregated error with the map left in the removed state
(the remove has already happened); otherwise insert all built registrations
keyed by handler name. -/
def addUnlocked (st : RegistryState) (cfg : ExtensionConfig) :
    RegistryState × Option RegistryError :=
  let items1 := removeOwned st.items cfg.name
  if cfg.handlers.any
      (fun e => decide ((parseGroupVersion e.requestHook.apiVersion).isNone = true)) then
    ({ st with items := items1 },
      some (RegistryError.aggregate (badAPIVersions cfg)))
  else
    ({ st with items :=
        (cfg.handlers.filterMap (buildRegistration cfg)).foldl insertReg items1 },
      none)

/-- The per-config loop of `extensionRegistry.WarmUp`: run `add` on each
config in order, collecting the errors. -/
def warmUpLoop (st : RegistryState) :
    List ExtensionConfig → RegistryState × List RegistryError
  | [] => (st, [])
  | c :: cs =>
    let r1 := addUnlocked st c
    let r2 := warmUpLoop r1.1 cs
    (r2.1,
      (match r1.2 with
       | some e => [e]
       | none => []) ++ r2.2)

/-- `extensionRegistry.WarmUp`: rejected with an invalid-operation error on a
ready registry; otherwise add every config, and on any error reset the map to
empty (readiness stays false) and return the aggregate, else mark ready.
The nil-list argument check of the Go code is unrepresentable here (a Lean
list is never nil). -/
def warmUp (st : RegistryState) (cfgs : List ExtensionConfig) :
    RegistryState × Option RegistryError :=
  if st.ready then
    (st, some (RegistryError.invalidOperation
      "WarmUp cannot be called on a registry which has already been warmed up"))
  else
    let r := warmUpLoop st cfgs
    if r.2.length > 0 then
      ({ ready := false, items := [] },
        some (RegistryError.aggregate (r.2.map (fun _ => "add failed"))))
    else
      ({ r.1 with ready := true }, none)

/-- `extensionRegistry.IsReady`. -/
def isReady (st : RegistryState) : Bool := st.ready

/-- `extensionRegistry.Add`: invalid-operation error when not ready, else the
unexported `add`.  The nil-config check is unrepresentable here. -/
def registryAdd (st : RegistryState) (cfg : ExtensionConfig) :
    RegistryState × Option RegistryError :=
  if st.ready then addUnlocked st cfg
  else
    (st, some (RegistryError.invalidOperation
      "Add cannot be called on a registry which has not been warmed up"))

/-- `extensionRegistry.Remove`: invalid-operation error when not ready, else
delete every registration owned by `cfg.name`. -/
def registryRemove (st : RegistryState) (cfg : ExtensionConfig) :
    RegistryState × Option RegistryError :=
  if st.ready then ({ st with items := removeOwned st.items cfg.name }, none)
  else
    (st, some (RegistryError.invalidOperation
      "Remove cannot be called on a registry which has not been warmed up"))

/-- `extensionRegistry.List`: argument errors for empty group or hook come
first, then the readiness check, then the (group, hook) filter ignoring the
version. -/
def registryList (st : RegistryState) (gh : GroupHook) :
    Except RegistryError (List ExtensionRegistration) :=
  if gh.group = "" then
    Except.error (RegistryError.invalidArgument
      "when calling List gh.Group must not be empty")
  else if gh.hook = "" then
    Except.error (RegistryError.invalidArgument
      "when calling List gh.Hook must not be empty")
  else if st.ready then
    Except.ok (st.items.filter
      (fun r => decide (r.groupVersionHook.group = gh.group ∧
        r.groupVersionHook.hook = gh.hook)))
  else
    Except.error (RegistryError.invalidOperation
      "List cannot be called on a registry which has not been warmed up")

/-- `extensionRegistry.Get`: invalid-operation error when not ready,
not-found error when the name is absent. -/
def registryGet (st : RegistryState) (n : String) :
    Except RegistryError ExtensionRegistration :=
  if st.ready then
    match lookupReg st.items n with
    | none => Except.error (RegistryError.notFound n)
    | some r => Except.ok r
  else
    Except.error (RegistryError.invalidOperation
      "Get cannot called on a registry not yet ready")

/-- True exactly on `some (invalidOperation _)`. -/
def errIsInvalidOp : Option RegistryError → Bool
  | some (RegistryError.invalidOperation _) => true
  | _ => false

/-- True exactly on `some (aggregate _)`. -/
def errIsAggregate : Option RegistryError → Bool
  | some (RegistryError.aggregate _) => true
  | _ => false

/-- Every handler of every config in the list has a parseable API-version
string. -/
def allParseable (cfgs : List ExtensionConfig) : Prop :=
  ∀ cfg ∈ cfgs, ∀ h ∈ cfg.handlers,
    (parseGroupVersion h.requestHook.apiVersion).isSome = true

instance (cfgs : List ExtensionConfig) : Decidable (allParseable cfgs) := by
  unfold allParseable
  infer_instance

/-- The Secret data key holding the CA certificate (`tlsCAKey` constant). -/
def tlsCAKey : String := "ca.crt"

/-- The annotation naming the secret to inject the CA bundle from
(`runtimev1.InjectCAFromSecretAnnotation`). -/
def injectCAFromSecretAnnot : String :=
  "runtime.cluster.x-k8s.io/inject-ca-from-secret"

/-- Condition type for the Discovered condition
(`runtimev1.ExtensionConfigDiscoveredCondition`). -/
def discoveredCondition : String := "Discovered"

/-- A Secret: a map from data key to bytes, modelled as an association list
with string payloads. -/
structure Secret where
  data : List (String × String)
deriving DecidableEq, Repr

/-- Look up an annotation on a config (Go map read `config.Annotations[k]`). -/
def lookupAnnot (cfg : ExtensionConfig) (k : String) : Option String :=
  (cfg.annotations.find? (fun p => decide (p.1 = k))).map (fun p => p.2)

/-- Look up a data key in a secret (Go map read `secret.Data[k]`). -/
def secretData (s : Secret) (k : String) : Option String :=
  (s.data.find? (fun p => decide (p.1 = k))).map (fun p => p.2)

/-- `splitNamespacedName`: split `<namespace>/<name>` at the first slash; a
string with no slash is all name, with an empty namespace. -/
def splitNamespacedName (s : String) : String × String :=
  match s.toList.span (fun c => decide (c ≠ '/')) with
  | (_, []) => ("", s)
  | (pre, _ :: post) => (String.mk pre, String.mk post)

/-- `conditions.Set`: replace the condition of the same type in place, or
append it. -/
def setCondition (cfg : ExtensionConfig) (c : Condition) : ExtensionConfig :=
  { cfg with conditions :=
      if cfg.conditions.any (fun e => decide (e.condType = c.condType)) then
        cfg.conditions.map (fun e => if e.condType = c.condType then c else e)
      else
        cfg.conditions ++ [c] }

/-- Read a condition by type. -/
def getCondition (cfg : ExtensionConfig) (t : String) : Option Condition :=
  cfg.conditions.find? (fun e => decide (e.condType = t))

/-- Errors raised by `reconcileCABundle`. -/
inductive CABundleError where
  | malformedRef (raw : String)
  | secretNotFound (ns name : String)
  | missingKey (raw : String) (key : String)
deriving DecidableEq, Repr

/-- `reconcileCABundle`: no annotation means skip; a reference without both
namespace and name is malformed; the secret is fetched uncached; a secret
without the `ca.crt` key is an error; otherwise the CA bytes are copied into
`spec.clientConfig.caBundle`. -/
def reconcileCABundle (getSecret : String → String → Option Secret)
    (cfg : ExtensionConfig) : Except CABundleError ExtensionConfig :=
  match lookupAnnot cfg injectCAFromSecretAnnot with
  | none => Except.ok cfg
  | some raw =>
    let nn := splitNamespacedName raw
    if nn.1 = "" ∨ nn.2 = "" then Except.error (CABundleError.malformedRef raw)
    else
      match getSecret nn.1 nn.2 with
      | none => Except.error (CABundleError.secretNotFound nn.1 nn.2)
      | some secret =>
        match secretData secret tlsCAKey with
        | none => Except.error (CABundleError.missingKey raw tlsCAKey)
        | some ca =>
          Except.ok { cfg with clientConfig :=
            { cfg.clientConfig with caBundle := some ca } }

/-- `discoverExtensionConfig`: on a failed discovery call, return the input
config with the Discovered condition set false and a message wrapping the
error, plus the error; on success, return the discovered config with the
Discovered condition set true. -/
def discoverExtensionConfig
    (discover : ExtensionConfig → Except String ExtensionConfig)
    (cfg : ExtensionConfig) : ExtensionConfig × Option String :=
  match discover cfg with
  | Except.error e =>
    (setCondition cfg
      { condType := discoveredCondition, condStatus := false,
        message := "Error in discovery: " ++ e },
      some e)
  | Except.ok d =>
    (setCondition d
      { condType := discoveredCondition, condStatus := true, message := "" },
      none)

/-- The external collaborators and inputs of one `Reconciler.Reconcile`
cycle: the registry, the requested object name, the object fetch result
(`none` models NotFound), the secret reader, the discovery client, and
whether the status patch succeeds. -/
structure ReconcileEnv where
  registry : RegistryState
  reqName : String
  getObject : Option ExtensionConfig
  getSecret : String → String → Option Secret
  discover : ExtensionConfig → Except String ExtensionConfig
  patchSucceeds : Bool

/-- The error returned by one reconcile cycle, by source. -/
inductive ReconcileError where
  | caBundle (e : CABundleError)
  | aggregate (msgs : List String)
  | register (e : RegistryError)
  | unregister (e : RegistryError)
deriving DecidableEq, Repr

/-- The observable outcome of one reconcile cycle: the returned result and
error, which external effects were performed, the object handed to the patch
call, and the registry state afterwards. -/
structure ReconcileOutcome where
  requeue : Bool
  err : Option ReconcileError
  fetched : Bool
  discoveryCalled : Bool
  patchAttempted : Bool
  patched : Option ExtensionConfig
  registerCalled : Bool
  registry : RegistryState
deriving DecidableEq, Repr

/-- `Reconciler.reconcileDelete`: unregister the config from the registry
(the runtime client's Unregister calls the registry's Remove). -/
def reconcileDelete (st : RegistryState) (cfg : ExtensionConfig)
    (fetchedObj : Bool) : ReconcileOutcome :=
  let r := registryRemove st cfg
  { requeue := false
    err := r.2.map ReconcileError.unregister
    fetched := fetchedObj
    discoveryCalled := false
    patchAttempted := false
    patched := none
    registerCalled := false
    registry := r.1 }

/-- An ExtensionConfig carrying only a name, as the reconciler builds one for
the NotFound deletion path. -/
def namedOnlyConfig (n : String) : ExtensionConfig :=
  { name := n, annotations := [], clientConfig := { url := none, caBundle := none },
    handlers := [], conditions := [], paused := false, deleted := false }

/-- `Reconciler.Reconcile`: requeue while the registry is not ready; treat a
NotFound fetch as deletion; stop on paused; run the deletion path on a
deletion marker; otherwise inject the CA bundle (returning its error
directly), run discovery, always attempt the patch with the discovered
object, aggregate discovery and patch errors, and only when both succeeded
register the discovered object with the registry (Register calls the
registry's Add). -/
def reconcile (env : ReconcileEnv) : ReconcileOutcome :=
  if env.registry.ready = false then
    { requeue := true, err := none, fetched := false, discoveryCalled := false,
      patchAttempted := false, patched := none, registerCalled := false,
      registry := env.registry }
  else
    match env.getObject with
    | none => reconcileDelete env.registry (namedOnlyConfig env.reqName) false
    | some obj =>
      if obj.paused then
        { requeue := false, err := none, fetched := true,
          discoveryCalled := false, patchAttempted := false, patched := none,
          registerCalled := false, registry := env.registry }
      else if obj.deleted then
        reconcileDelete env.registry obj true
      else
        match reconcileCABundle env.getSecret obj with
        | Except.error e =>
          { requeue := false, err := some (ReconcileError.caBundle e),
            fetched := true, discoveryCalled := false, patchAttempted := false,
            patched := none, registerCalled := false, registry := env.registry }
        | Except.ok obj1 =>
          let d := discoverExtensionConfig env.discover obj1
          let errs :=
            (match d.2 with
             | some e => ["failed to discover: " ++ e]
             | none => []) ++
            (if env.patchSucceeds then [] else ["patch failed"])
          if errs.isEmpty then
            let a := registryAdd env.registry d.1
            { requeue := false, err := a.2.map ReconcileError.register,
              fetched := true, discoveryCalled := true, patchAttempted := true,
              patched := some d.1, registerCalled := true, registry := a.1 }
          else
            { requeue := false, err := some (ReconcileError.aggregate errs),
              fetched := true, discoveryCalled := true, patchAttempted := true,
              patched := some d.1, registerCalled := false,
              registry := env.registry }


/-! ### Concrete fixtures for evaluating the operations -/

/-- A sample connection config. -/
def sampleClientConfig : ClientConfig :=
  { url := some "https://extension.example.test", caBundle := none }

/-- A handler on hook BeforeClusterUpgrade with a parseable API version. -/
def handlerOne : ExtensionHandler :=
  { name := "handler-one"
    requestHook :=
      { apiVersion := "hooks.runtime.cluster.x-k8s.io/v1alpha1"
        hook := "BeforeClusterUpgrade" }
    timeoutSeconds := some 10
    failurePolicy := some "Fail" }

/-- A handler on hook AfterControlPlaneInitialized with a parseable API
version. -/
def handlerTwo : ExtensionHandler :=
  { name := "handler-two"
    requestHook :=
      { apiVersion := "hooks.runtime.cluster.x-k8s.io/v1alpha1"
        hook := "AfterControlPlaneInitialized" }
    timeoutSeconds := none
    failurePolicy := none }

/-- A handler whose API-version string has two slashes and does not parse. -/
def handlerBad : ExtensionHandler :=
  { name := "handler-bad"
    requestHook :=
      { apiVersion := "bad/group/version", hook := "BeforeClusterUpgrade" }
    timeoutSeconds := none
    failurePolicy := none }

/-- A config owning the valid handler-one. -/
def configOne : ExtensionConfig :=
  { name := "config-one", annotations := [], clientConfig := sampleClientConfig
    handlers := [handlerOne], conditions := [], paused := false
    deleted := false }

/-- A config owning the valid handler-two. -/
def configTwo : ExtensionConfig :=
  { name := "config-two", annotations := [], clientConfig := sampleClientConfig
    handlers := [handlerTwo], conditions := [], paused := false
    deleted := false }

/-- An update of config-one that declares one malformed handler. -/
def configOneBad : ExtensionConfig :=
  { name := "config-one", annotations := [], clientConfig := sampleClientConfig
    handlers := [handlerBad], conditions := [], paused := false
    deleted := false }

/-- A ready registry obtained by warming up with config-one and config-two. -/
def readyTwo : RegistryState := (warmUp newRegistry [configOne, configTwo]).1

/-- A config whose trust-bundle annotation names the secret
ns-one/secret-one. -/
def configAnnotated : ExtensionConfig :=
  { name := "config-annotated"
    annotations := [(injectCAFromSecretAnnot, "ns-one/secret-one")]
    clientConfig := sampleClientConfig
    handlers := [], conditions := [], paused := false, deleted := false }

/-- A secret that exists but carries no ca.crt entry. -/
def secretNoCA : Secret := { data := [("tls.key", "private-key-bytes")] }

/-- A reconcile environment where the annotated secret exists but lacks the
ca.crt key. -/
def envMissingKey : ReconcileEnv :=
  { registry := readyTwo
    reqName := "config-annotated"
    getObject := some configAnnotated
    getSecret := fun ns nm =>
      if ns = "ns-one" ∧ nm = "secret-one" then some secretNoCA else none
    discover := fun c => Except.ok c
    patchSucceeds := true }

/-- A reconcile environment where the discovery call fails transiently. -/
def envDiscFail : ReconcileEnv :=
  { registry := readyTwo
    reqName := "config-two"
    getObject := some configTwo
    getSecret := fun _ _ => none
    discover := fun _ => Except.error "connection refused"
    patchSucceeds := true }

/-- A reconcile environment whose registry has not been warmed up. -/
def envNotReady : ReconcileEnv :=
  { registry := newRegistry
    reqName := "config-one"
    getObject := some configOne
    getSecret := fun _ _ => none
    discover := fun c => Except.ok c
    patchSucceeds := true }

/-- Whether the registry items have pairwise-distinct names (the key
invariant of the Go map model, preserved by every operation). -/
def namesNodup (items : List ExtensionRegistration) : Prop :=
  (items.map (fun e => e.name)).Nodup

instance (items : List ExtensionRegistration) : Decidable (namesNodup items) := by
  unfold namesNodup
  infer_instance

/-! ### Helper lemmas -/

theorem find?_upsert {α : Type} (key : α → String) (l : List α) (x : α)
    (n : String) :
    List.find? (fun e => decide (key e = n))
      (if l.any (fun e => decide (key e = key x)) then
        l.map (fun e => if key e = key x then x else e)
      else l ++ [x])
    = if n = key x then some x
      else List.find? (fun e => decide (key e = n)) l := by
  by_cases hany : l.any (fun e => decide (key e = key x)) = true
  · rw [if_pos hany, List.find?_map]
    by_cases hn : n = key x
    · subst hn
      have hfg : ((fun e => decide (key e = key x)) ∘
          (fun e => if key e = key x then x else e)) =
          fun e => decide (key e = key x) := by
        funext e
        simp only [Function.comp_apply]
        by_cases h : key e = key x
        · rw [if_pos h, h]
        · rw [if_neg h]
      rw [hfg, if_pos rfl]
      have hsome : (List.find? (fun e => decide (key e = key x)) l).isSome := by
        rw [List.find?_isSome]
        rw [List.any_eq_true] at hany
        exact hany
      obtain ⟨e₁, he₁⟩ := Option.isSome_iff_exists.mp hsome
      rw [he₁]
      have hk₁ : decide (key e₁ = key x) = true :=
        List.find?_some (p := fun e => decide (key e = key x)) he₁
      have hk₁' : key e₁ = key x := of_decide_eq_true hk₁
      simp [hk₁']
    · have hfg : ((fun e => decide (key e = n)) ∘
          (fun e => if key e = key x then x else e)) =
          fun e => decide (key e = n) := by
        funext e
        simp only [Function.comp_apply]
        by_cases h : key e = key x
        · rw [if_pos h, h]
        · rw [if_neg h]
      rw [hfg, if_neg hn]
      cases hf : List.find? (fun e => decide (key e = n)) l with
      | none => rfl
      | some e₁ =>
        have hk₁ : decide (key e₁ = n) = true :=
          List.find?_some (p := fun e => decide (key e = n)) hf
        have hk₁' : key e₁ = n := of_decide_eq_true hk₁
        have hne : ¬ key e₁ = key x := fun hq => hn (hk₁' ▸ hq)
        simp [hne]
  · rw [if_neg hany, List.find?_append]
    by_cases hn : n = key x
    · subst hn
      have hnone : List.find? (fun e => decide (key e = key x)) l = none := by
        rw [List.find?_eq_none]
        intro e he hq
        exact hany (List.any_eq_true.mpr ⟨e, he, hq⟩)
      rw [hnone, if_pos rfl]
      simp [List.find?]
    · rw [if_neg hn]
      have hdx : decide (key x = n) = false :=
        decide_eq_false (fun hq => hn hq.symm)
      have hone : List.find? (fun e => decide (key e = n)) [x] = none := by
        simp [List.find?, hdx]
      rw [hone, Option.or_none]

theorem find?_filter_of_nodupKeys {α : Type} (key : α → String)
    (l : List α) (p : α → Bool) (n : String)
    (hnd : (l.map key).Nodup) :
    List.find? (fun e => decide (key e = n)) (l.filter p)
    = (List.find? (fun e => decide (key e = n)) l).bind
        (fun e => if p e then some e else none) := by
  induction l with
  | nil => simp
  | cons a t ih =>
    rw [List.map_cons, List.nodup_cons] at hnd
    obtain ⟨hka, hndt⟩ := hnd
    by_cases hk : key a = n
    · have hfa : List.find? (fun e => decide (key e = n)) (a :: t) = some a :=
        List.find?_cons_of_pos (p := fun e => decide (key e = n)) _
          (decide_eq_true hk)
      rw [hfa]
      by_cases hp : p a = true
      · rw [List.filter_cons_of_pos hp]
        rw [List.find?_cons_of_pos (p := fun e => decide (key e = n)) _
          (decide_eq_true hk)]
        simp [hp]
      · rw [List.filter_cons_of_neg hp]
        have hfn : List.find? (fun e => decide (key e = n)) (t.filter p)
            = none := by
          rw [List.find?_eq_none]
          intro x hx hq
          have hxt : x ∈ t := (List.mem_filter.mp hx).1
          have hxn : key x = n := of_decide_eq_true hq
          exact hka (hk ▸ hxn ▸ List.mem_map_of_mem key hxt)
        rw [hfn]
        simp [hp]
    · have hfa : List.find? (fun e => decide (key e = n)) (a :: t)
          = List.find? (fun e => decide (key e = n)) t :=
        List.find?_cons_of_neg (p := fun e => decide (key e = n)) _
          (by simp [hk])
      rw [hfa]
      by_cases hp : p a = true
      · rw [List.filter_cons_of_pos hp]
        rw [List.find?_cons_of_neg (p := fun e => decide (key e = n)) _
          (by simp [hk])]
        exact ih hndt
      · rw [List.filter_cons_of_neg hp]
        exact ih hndt

theorem lookupReg_insertReg (items : List ExtensionRegistration)
    (r : ExtensionRegistration) (n : String) :
    lookupReg (insertReg items r) n
    = if n = r.name then some r else lookupReg items n := by
  simp only [lookupReg, insertReg]
  exact find?_upsert (fun e => e.name) items r n

theorem getCondition_setCondition (cfg : ExtensionConfig) (c : Condition)
    (t : String) :
    getCondition (setCondition cfg c) t
    = if t = c.condType then some c else getCondition cfg t := by
  simp only [getCondition, setCondition]
  exact find?_upsert (fun e => e.condType) cfg.conditions c t


theorem namesNodup_insertReg (items : List ExtensionRegistration)
    (r : ExtensionRegistration) (h : namesNodup items) :
    namesNodup (insertReg items r) := by
  unfold namesNodup insertReg at *
  by_cases hany : items.any (fun e => decide (e.name = r.name)) = true
  · rw [if_pos hany]
    have hmap : List.map (fun e => e.name)
        (items.map (fun e => if e.name = r.name then r else e))
        = items.map (fun e => e.name) := by
      rw [List.map_map]
      apply List.map_congr_left
      intro e _
      simp only [Function.comp_apply]
      by_cases he : e.name = r.name
      · rw [if_pos he, he]
      · rw [if_neg he]
    rw [hmap]
    exact h
  · rw [if_neg hany, List.map_append, List.nodup_append]
    refine ⟨h, List.nodup_singleton _, ?_⟩
    intro a ha hb
    simp only [List.map_cons, List.map_nil, List.mem_singleton] at hb
    subst hb
    rw [List.mem_map] at ha
    obtain ⟨e, he, hname⟩ := ha
    exact hany (List.any_eq_true.mpr ⟨e, he, decide_eq_true hname⟩)

theorem namesNodup_filter (items : List ExtensionRegistration)
    (p : ExtensionRegistration → Bool) (h : namesNodup items) :
    namesNodup (items.filter p) := by
  unfold namesNodup at *
  exact ((items.filter_sublist).map (fun e => e.name)).nodup h

theorem namesNodup_foldl_insertReg (regs : List ExtensionRegistration)
    (items : List ExtensionRegistration) (h : namesNodup items) :
    namesNodup (regs.foldl insertReg items) := by
  induction regs generalizing items with
  | nil => exact h
  | cons r rs ih => exact ih (insertReg items r) (namesNodup_insertReg items r h)

theorem lookupReg_foldl_insertReg (regs : List ExtensionRegistration)
    (items : List ExtensionRegistration) (n : String) :
    lookupReg (regs.foldl insertReg items) n
    = (regs.reverse.find? (fun r => decide (r.name = n))).or (lookupReg items n) := by
  induction regs generalizing items with
  | nil => simp
  | cons r rs ih =>
    rw [List.foldl_cons, ih, List.reverse_cons, List.find?_append]
    rw [lookupReg_insertReg, Option.or_assoc]
    congr 1
    by_cases hn : n = r.name
    · rw [if_pos hn]
      have hfr : List.find? (fun r0 => decide (r0.name = n)) [r] = some r := by
        simp [List.find?, hn]
      rw [hfr]
      rfl
    · rw [if_neg hn]
      have hd : decide (r.name = n) = false :=
        decide_eq_false (fun hq => hn hq.symm)
      have hfr : List.find? (fun r0 => decide (r0.name = n)) [r] = none := by
        simp [List.find?, hd]
      rw [hfr, Option.none_or]

theorem addUnlocked_ready (st : RegistryState) (cfg : ExtensionConfig) :
    (addUnlocked st cfg).1.ready = st.ready := by
  unfold addUnlocked
  by_cases hb : cfg.handlers.any
      (fun e => decide ((parseGroupVersion e.requestHook.apiVersion).isNone = true)) = true
  · rw [if_pos hb]
  · rw [if_neg hb]

theorem addUnlocked_err_none_iff (st : RegistryState) (cfg : ExtensionConfig) :
    (addUnlocked st cfg).2 = none ↔
      ∀ h ∈ cfg.handlers,
        (parseGroupVersion h.requestHook.apiVersion).isSome = true := by
  unfold addUnlocked
  by_cases hb : cfg.handlers.any
      (fun e => decide ((parseGroupVersion e.requestHook.apiVersion).isNone = true)) = true
  · rw [if_pos hb]
    simp only [reduceCtorEq, false_iff, not_forall]
    rw [List.any_eq_true] at hb
    obtain ⟨e, he, hq⟩ := hb
    refine ⟨e, he, ?_⟩
    have hq' : (parseGroupVersion e.requestHook.apiVersion).isNone = true :=
      of_decide_eq_true hq
    rw [Option.isNone_iff_eq_none] at hq'
    simp [hq']
  · rw [if_neg hb]
    simp only [true_iff]
    intro e he
    by_contra hns
    apply hb
    rw [List.any_eq_true]
    refine ⟨e, he, decide_eq_true ?_⟩
    cases hp : parseGroupVersion e.requestHook.apiVersion with
    | none => rfl
    | some v => exact absurd (by rw [hp]; rfl) hns

theorem addUnlocked_ok (st : RegistryState) (cfg : ExtensionConfig)
    (hok : ∀ h ∈ cfg.handlers,
      (parseGroupVersion h.requestHook.apiVersion).isSome = true) :
    addUnlocked st cfg
      = ({ st with
            items := List.foldl insertReg (removeOwned st.items cfg.name)
              (cfg.handlers.filterMap (buildRegistration cfg)) }, none) := by
  unfold addUnlocked
  rw [if_neg]
  intro hb
  rw [List.any_eq_true] at hb
  obtain ⟨e, he, hq⟩ := hb
  have hq' : (parseGroupVersion e.requestHook.apiVersion).isNone = true :=
    of_decide_eq_true hq
  have := hok e he
  rw [Option.isNone_iff_eq_none] at hq'
  rw [hq'] at this
  exact absurd this (by decide)

theorem addUnlocked_bad (st : RegistryState) (cfg : ExtensionConfig)
    (hbad : ∃ h ∈ cfg.handlers,
      parseGroupVersion h.requestHook.apiVersion = none) :
    addUnlocked st cfg
      = ({ st with items := removeOwned st.items cfg.name },
          some (RegistryError.aggregate (badAPIVersions cfg))) := by
  unfold addUnlocked
  rw [if_pos]
  rw [List.any_eq_true]
  obtain ⟨e, he, hq⟩ := hbad
  exact ⟨e, he, decide_eq_true (by rw [hq]; rfl)⟩

theorem warmUpLoop_ready (st : RegistryState) (cfgs : List ExtensionConfig) :
    (warmUpLoop st cfgs).1.ready = st.ready := by
  induction cfgs generalizing st with
  | nil => rfl
  | cons c cs ih =>
    show (warmUpLoop (addUnlocked st c).1 cs).1.ready = st.ready
    rw [ih, addUnlocked_ready]

theorem warmUpLoop_errs_nil_iff (st : RegistryState)
    (cfgs : List ExtensionConfig) :
    (warmUpLoop st cfgs).2 = [] ↔ allParseable cfgs := by
  induction cfgs generalizing st with
  | nil => simp [warmUpLoop, allParseable]
  | cons c cs ih =>
    show ((match (addUnlocked st c).2 with
      | some e => [e]
      | none => []) ++ (warmUpLoop (addUnlocked st c).1 cs).2 = []) ↔ _
    rw [List.append_eq_nil]
    have hall : allParseable (c :: cs) ↔
        ((∀ h ∈ c.handlers,
          (parseGroupVersion h.requestHook.apiVersion).isSome = true) ∧
          allParseable cs) := by
      unfold allParseable
      simp [List.forall_mem_cons]
    rw [hall, ← ih (addUnlocked st c).1, ← addUnlocked_err_none_iff st c]
    cases (addUnlocked st c).2 with
    | none => simp
    | some e => simp

/-- Claim C1: for every config list presented to a not-yet-ready registry,
WarmUp followed by IsReady returns true iff every config has all handlers
with parseable API-version strings; if any handler fails to parse, WarmUp
returns an aggregate error, the item map is empty afterwards, and readiness
stays false. -/
theorem warmUp_ready_iff (st : RegistryState) (cfgs : List ExtensionConfig)
    (hnr : st.ready = false) :
    (isReady (warmUp st cfgs).1 = true ↔ allParseable cfgs) ∧
    (allParseable cfgs → (warmUp st cfgs).2 = none) ∧
    (¬ allParseable cfgs →
      errIsAggregate (warmUp st cfgs).2 = true ∧
      (warmUp st cfgs).1.items = [] ∧
      (warmUp st cfgs).1.ready = false) := by
  have hloop := warmUpLoop_errs_nil_iff st cfgs
  unfold warmUp isReady
  rw [hnr]
  simp only [Bool.false_eq_true, if_false]
  by_cases hall : allParseable cfgs
  · have hnil : (warmUpLoop st cfgs).2 = [] := hloop.mpr hall
    rw [hnil]
    simp only [List.length_nil, gt_iff_lt, Nat.lt_irrefl, if_false]
    exact ⟨iff_of_true trivial hall, fun _ => trivial,
      fun hc => absurd hall hc⟩
  · have hnnil : (warmUpLoop st cfgs).2 ≠ [] := fun hq => hall (hloop.mp hq)
    have hlen : (warmUpLoop st cfgs).2.length > 0 :=
      List.length_pos.mpr hnnil
    rw [if_pos hlen]
    exact ⟨by simp [hall], fun hc => absurd hc hall,
      fun _ => ⟨rfl, rfl, rfl⟩⟩

/-- Claim C5: readiness gates the lifecycle: while the registry is not
ready, Add, Remove, List and Get each fail with an invalid-operation error
and leave the state unchanged; while it is ready, WarmUp fails with an
invalid-operation error. -/
theorem readinessGatesLifecycle (st : RegistryState) (cfg : ExtensionConfig)
    (n g h : String) (cfgs : List ExtensionConfig)
    (hg : g ≠ "") (hh : h ≠ "") :
    (st.ready = false →
      errIsInvalidOp (registryAdd st cfg).2 = true ∧
      (registryAdd st cfg).1 = st ∧
      errIsInvalidOp (registryRemove st cfg).2 = true ∧
      (registryRemove st cfg).1 = st ∧
      (∃ m, registryList st { group := g, hook := h }
        = Except.error (RegistryError.invalidOperation m)) ∧
      (∃ m, registryGet st n
        = Except.error (RegistryError.invalidOperation m))) ∧
    (st.ready = true →
      errIsInvalidOp (warmUp st cfgs).2 = true ∧ (warmUp st cfgs).1 = st) := by
  obtain ⟨sr, si⟩ := st
  constructor
  · intro hnr
    replace hnr : sr = false := hnr
    subst hnr
    refine ⟨rfl, rfl, rfl, rfl, ?_, ⟨_, rfl⟩⟩
    unfold registryList
    rw [if_neg hg, if_neg hh]
    exact ⟨_, rfl⟩
  · intro hr
    replace hr : sr = true := hr
    subst hr
    exact ⟨rfl, rfl⟩

/-- Claim C6: List fails with an argument error when group or hook is
empty, fails with an invalid-operation error when the registry is not
ready, and on a ready registry returns exactly the registrations whose
group and hook match, regardless of version. -/
theorem listExactMatches (st : RegistryState) (g h : String)
    (hg : g ≠ "") (hh : h ≠ "") :
    (∀ g2 h2 : String, g2 = "" ∨ h2 = "" →
      ∃ m, registryList st { group := g2, hook := h2 }
        = Except.error (RegistryError.invalidArgument m)) ∧
    (st.ready = false →
      ∃ m, registryList st { group := g, hook := h }
        = Except.error (RegistryError.invalidOperation m)) ∧
    (st.ready = true →
      ∃ l, registryList st { group := g, hook := h } = Except.ok l ∧
        ∀ r : ExtensionRegistration,
          r ∈ l ↔ (r ∈ st.items ∧ r.groupVersionHook.group = g ∧
            r.groupVersionHook.hook = h)) := by
  obtain ⟨sr, si⟩ := st
  refine ⟨?_, ?_, ?_⟩
  · intro g2 h2 hempty
    unfold registryList
    rcases hempty with hq | hq
    · rw [if_pos hq]
      exact ⟨_, rfl⟩
    · by_cases hq2 : g2 = ""
      · rw [if_pos hq2]
        exact ⟨_, rfl⟩
      · rw [if_neg hq2, if_pos hq]
        exact ⟨_, rfl⟩
  · intro hnr
    replace hnr : sr = false := hnr
    subst hnr
    unfold registryList
    rw [if_neg hg, if_neg hh]
    exact ⟨_, rfl⟩
  · intro hr
    replace hr : sr = true := hr
    subst hr
    unfold registryList
    rw [if_neg hg, if_neg hh]
    refine ⟨_, rfl, ?_⟩
    intro r
    show r ∈ si.filter _ ↔ _
    rw [List.mem_filter]
    simp only [decide_eq_true_eq]

/-- Claim C7: on a ready registry, Remove succeeds and deletes exactly the
registrations whose owning-config name equals the config's name; removing a
config that owns no registrations is a no-op. -/
theorem removeDeletesExactlyOwned (st : RegistryState) (cfg : ExtensionConfig)
    (hready : st.ready = true) :
    (registryRemove st cfg).2 = none ∧
    (∀ r : ExtensionRegistration,
      r ∈ (registryRemove st cfg).1.items ↔
        (r ∈ st.items ∧ r.extensionConfigName ≠ cfg.name)) ∧
    ((∀ r ∈ st.items, r.extensionConfigName ≠ cfg.name) →
      (registryRemove st cfg).1 = st) := by
  obtain ⟨sr, si⟩ := st
  replace hready : sr = true := hready
  subst hready
  refine ⟨rfl, ?_, ?_⟩
  · intro r
    show r ∈ removeOwned si cfg.name ↔ _
    unfold removeOwned
    rw [List.mem_filter]
    simp only [decide_eq_true_eq]
  · intro hnone
    have hfilter : removeOwned si cfg.name = si := by
      unfold removeOwned
      rw [List.filter_eq_self]
      intro r hr
      exact decide_eq_true (hnone r hr)
    show ({ ready := true, items := removeOwned si cfg.name } : RegistryState) = _
    rw [hfilter]

/-- Claim C2 (amended): on a ready registry, Add of a config with a
malformed handler returns an aggregated parse error and registers zero of
the config's handlers; registrations owned by every other config are
unchanged, but the registrations previously owned by the config itself are
removed (the remove-then-insert order of the unexported add runs the remove
before parsing). -/
theorem addAllOrNothing (st : RegistryState) (cfg : ExtensionConfig)
    (hready : st.ready = true)
    (hbad : ∃ h ∈ cfg.handlers,
      parseGroupVersion h.requestHook.apiVersion = none) :
    errIsAggregate (registryAdd st cfg).2 = true ∧
    (∀ r : ExtensionRegistration,
      r ∈ (registryAdd st cfg).1.items ↔
        (r ∈ st.items ∧ r.extensionConfigName ≠ cfg.name)) := by
  obtain ⟨sr, si⟩ := st
  replace hready : sr = true := hready
  subst hready
  have hb := addUnlocked_bad ⟨true, si⟩ cfg hbad
  constructor
  · show errIsAggregate (addUnlocked ⟨true, si⟩ cfg).2 = true
    rw [hb]
    rfl
  · intro r
    show r ∈ (addUnlocked ⟨true, si⟩ cfg).1.items ↔ _
    rw [hb]
    show r ∈ removeOwned si cfg.name ↔ _
    unfold removeOwned
    rw [List.mem_filter]
    simp only [decide_eq_true_eq]

/-- Claim C8: Add is idempotent per owner: on a ready registry, adding the
same valid config twice yields the same registration map (pointwise by
name) as adding it once. -/
theorem addIdempotentPerOwner (st : RegistryState) (cfg : ExtensionConfig)
    (hready : st.ready = true) (hnd : namesNodup st.items)
    (hok : ∀ h ∈ cfg.handlers,
      (parseGroupVersion h.requestHook.apiVersion).isSome = true) :
    ∀ n : String,
      lookupReg (registryAdd (registryAdd st cfg).1 cfg).1.items n
      = lookupReg (registryAdd st cfg).1.items n := by
  obtain ⟨sr, si⟩ := st
  replace hready : sr = true := hready
  subst hready
  replace hnd : namesNodup si := hnd
  intro n
  have h1 := addUnlocked_ok ⟨true, si⟩ cfg hok
  show lookupReg (registryAdd (addUnlocked ⟨true, si⟩ cfg).1 cfg).1.items n
      = lookupReg (addUnlocked ⟨true, si⟩ cfg).1.items n
  rw [h1]
  set R := removeOwned si cfg.name with hR
  set regs := cfg.handlers.filterMap (buildRegistration cfg) with hregs
  set I1 := List.foldl insertReg R regs with hI1
  show lookupReg (registryAdd ⟨true, I1⟩ cfg).1.items n = lookupReg I1 n
  have h2 := addUnlocked_ok ⟨true, I1⟩ cfg hok
  show lookupReg (addUnlocked ⟨true, I1⟩ cfg).1.items n = lookupReg I1 n
  rw [h2]
  show lookupReg (List.foldl insertReg (removeOwned I1 cfg.name) regs) n
      = lookupReg I1 n
  have hndR : namesNodup R := namesNodup_filter si _ hnd
  have hndI1 : namesNodup I1 := namesNodup_foldl_insertReg regs R hndR
  rw [lookupReg_foldl_insertReg]
  have hI1look : lookupReg I1 n
      = (regs.reverse.find? (fun r => decide (r.name = n))).or (lookupReg R n) :=
    lookupReg_foldl_insertReg regs R n
  cases hF : regs.reverse.find? (fun r => decide (r.name = n)) with
  | some r =>
    rw [hF] at hI1look
    rw [hI1look]
    rfl
  | none =>
    rw [hF] at hI1look
    rw [Option.none_or] at hI1look
    rw [hI1look, Option.none_or]
    show lookupReg (I1.filter
      (fun e => decide (¬ e.extensionConfigName = cfg.name))) n = lookupReg R n
    have hndI1m : (I1.map (fun e => e.name)).Nodup := hndI1
    have hfl := find?_filter_of_nodupKeys (fun e => e.name) I1
      (fun e => decide (¬ e.extensionConfigName = cfg.name)) n hndI1m
    show List.find? (fun e => decide (e.name = n)) (I1.filter
      (fun e => decide (¬ e.extensionConfigName = cfg.name))) = lookupReg R n
    rw [hfl]
    have hI1n : List.find? (fun e => decide (e.name = n)) I1 = lookupReg R n :=
      hI1look
    rw [hI1n]
    cases hRn : lookupReg R n with
    | none => rfl
    | some e =>
      have hmem : e ∈ R := List.mem_of_find?_eq_some hRn
      have hefilter := List.mem_filter.mp (hR ▸ hmem)
      have hown : decide (¬ e.extensionConfigName = cfg.name) = true :=
        hefilter.2
      show (if (decide (¬ e.extensionConfigName = cfg.name)) = true
          then some e else none) = some e
      rw [if_pos hown]

theorem warmUp_fail (st : RegistryState) (cfgs : List ExtensionConfig)
    (hnr : st.ready = false) (hbad : ¬ allParseable cfgs) :
    warmUp st cfgs
      = ({ ready := false, items := [] },
        some (RegistryError.aggregate
          ((warmUpLoop st cfgs).2.map (fun _ => "add failed")))) := by
  unfold warmUp
  rw [hnr]
  simp only [Bool.false_eq_true, if_false]
  have hnnil : (warmUpLoop st cfgs).2 ≠ [] :=
    fun hq => hbad ((warmUpLoop_errs_nil_iff st cfgs).mp hq)
  rw [if_pos (List.length_pos.mpr hnnil)]

theorem warmUp_ok (st : RegistryState) (cfgs : List ExtensionConfig)
    (hnr : st.ready = false) (hok : allParseable cfgs) :
    warmUp st cfgs = ({ (warmUpLoop st cfgs).1 with ready := true }, none) := by
  unfold warmUp
  rw [hnr]
  simp only [Bool.false_eq_true, if_false]
  rw [(warmUpLoop_errs_nil_iff st cfgs).mpr hok]
  simp only [List.length_nil, gt_iff_lt, Nat.lt_irrefl, if_false]

/-- Claim C10: a failed WarmUp leaves readiness false and the map empty, so
WarmUp may be retried and succeeds when given a fully valid config list. -/
theorem warmUpRetryableAfterFailure (st : RegistryState)
    (bad good : List ExtensionConfig) (hnr : st.ready = false)
    (hbad : ¬ allParseable bad) (hok : allParseable good) :
    (warmUp st bad).2.isSome = true ∧
    (warmUp st bad).1.ready = false ∧
    (warmUp st bad).1.items = [] ∧
    (warmUp (warmUp st bad).1 good).2 = none ∧
    (warmUp (warmUp st bad).1 good).1.ready = true := by
  have h1 := warmUp_fail st bad hnr hbad
  have h2 : (warmUp st bad).1 = { ready := false, items := [] } := by rw [h1]
  have h3 := warmUp_ok { ready := false, items := [] } good rfl hok
  refine ⟨?_, ?_, ?_, ?_, ?_⟩
  · rw [h1]
    rfl
  · rw [h2]
  · rw [h2]
  · rw [h2, h3]
  · rw [h2, h3]

theorem reconcileCABundle_ok_fields
    (getSecret : String → String → Option Secret)
    (cfg cfg' : ExtensionConfig)
    (h : reconcileCABundle getSecret cfg = Except.ok cfg') :
    cfg'.name = cfg.name ∧ cfg'.handlers = cfg.handlers ∧
    cfg'.conditions = cfg.conditions := by
  unfold reconcileCABundle at h
  split at h
  · cases h
    exact ⟨rfl, rfl, rfl⟩
  · dsimp only at h
    split at h
    · cases h
    · split at h
      · cases h
      · split at h
        · cases h
        · cases h
          exact ⟨rfl, rfl, rfl⟩

/-- Claim C9: a reconcile request arriving while the registry is not ready
is requeued without fetching the object and without any discovery, patch or
registry operation. -/
theorem reconcileRequeuesWhenNotReady (env : ReconcileEnv)
    (h : env.registry.ready = false) :
    reconcile env
      = { requeue := true, err := none, fetched := false,
          discoveryCalled := false, patchAttempted := false, patched := none,
          registerCalled := false, registry := env.registry } := by
  unfold reconcile
  rw [if_pos h]

/-- Claim C4: when the discovery call fails, the cycle returns an error,
still attempts the patch, the patched object carries the Discovered
condition false with a message containing the error and its handler list is
unchanged, and the registry is neither registered into nor modified. -/
theorem discoveryFailureKeepsState (env : ReconcileEnv)
    (obj obj1 : ExtensionConfig) (e : String)
    (hready : env.registry.ready = true)
    (hobj : env.getObject = some obj)
    (hpause : obj.paused = false)
    (hdel : obj.deleted = false)
    (hca : reconcileCABundle env.getSecret obj = Except.ok obj1)
    (hdisc : env.discover obj1 = Except.error e) :
    (reconcile env).err.isSome = true ∧
    (reconcile env).patchAttempted = true ∧
    (∃ p, (reconcile env).patched = some p ∧
      getCondition p discoveredCondition
        = some { condType := discoveredCondition, condStatus := false,
                 message := "Error in discovery: " ++ e } ∧
      p.handlers = obj.handlers) ∧
    (reconcile env).registerCalled = false ∧
    (reconcile env).registry = env.registry := by
  have hd : discoverExtensionConfig env.discover obj1
      = (setCondition obj1
          { condType := discoveredCondition, condStatus := false,
            message := "Error in discovery: " ++ e }, some e) := by
    unfold discoverExtensionConfig
    rw [hdisc]
  have hrec : reconcile env
      = { requeue := false,
          err := some (ReconcileError.aggregate
            (["failed to discover: " ++ e] ++
              (if env.patchSucceeds then [] else ["patch failed"]))),
          fetched := true,
          discoveryCalled := true,
          patchAttempted := true,
          patched := some (setCondition obj1
            { condType := discoveredCondition, condStatus := false,
              message := "Error in discovery: " ++ e }),
          registerCalled := false,
          registry := env.registry } := by
    unfold reconcile
    rw [if_neg (by rw [hready]; exact fun hq => Bool.noConfusion hq)]
    rw [hobj]
    simp only [hpause, hdel, Bool.false_eq_true, if_false]
    rw [hca]
    simp only [hd]
    rfl
  rw [hrec]
  refine ⟨rfl, rfl, ⟨_, rfl, ?_, ?_⟩, rfl, rfl⟩
  · rw [getCondition_setCondition]
    simp
  · show obj1.handlers = obj.handlers
    exact (reconcileCABundle_ok_fields env.getSecret obj obj1 hca).2.1

/-- Claim C3 (amended): when the trust-bundle annotation names an existing
secret that lacks the ca.crt key, the reconcile cycle returns the
missing-key error directly: no condition is set, no patch is attempted, no
discovery happens, and the registry is unchanged. -/
theorem missingCAKeyAbortsCycle (env : ReconcileEnv) (obj : ExtensionConfig)
    (raw : String) (secret : Secret)
    (hready : env.registry.ready = true)
    (hobj : env.getObject = some obj)
    (hpause : obj.paused = false)
    (hdel : obj.deleted = false)
    (hann : lookupAnnot obj injectCAFromSecretAnnot = some raw)
    (hns : (splitNamespacedName raw).1 ≠ "")
    (hnm : (splitNamespacedName raw).2 ≠ "")
    (hsec : env.getSecret (splitNamespacedName raw).1 (splitNamespacedName raw).2
      = some secret)
    (hkey : secretData secret tlsCAKey = none) :
    reconcile env
      = { requeue := false,
          err := some (ReconcileError.caBundle
            (CABundleError.missingKey raw tlsCAKey)),
          fetched := true, discoveryCalled := false, patchAttempted := false,
          patched := none, registerCalled := false,
          registry := env.registry } := by
  have hca : reconcileCABundle env.getSecret obj
      = Except.error (CABundleError.missingKey raw tlsCAKey) := by
    unfold reconcileCABundle
    rw [hann]
    dsimp only
    rw [if_neg (fun hq => hq.elim hns hnm)]
    rw [hsec]
    dsimp only
    rw [hkey]
  unfold reconcile
  rw [if_neg (by rw [hready]; exact fun hq => Bool.noConfusion hq)]
  rw [hobj]
  simp only [hpause, hdel, Bool.false_eq_true, if_false]
  rw [hca]

/-- Counterexample to claim C2 as stated: on the concrete ready registry,
Add of the malformed update of config-one fails, yet the registration
handler-one previously owned by config-one is gone afterwards. -/
theorem addFailureRemovesOwnerPriorEntries :
    (lookupReg readyTwo.items "handler-one").isSome = true ∧
    (registryAdd readyTwo configOneBad).2.isSome = true ∧
    lookupReg (registryAdd readyTwo configOneBad).1.items "handler-one"
      = none := by
  decide

/-- Counterexample to claim C3 as stated: in the concrete environment whose
annotated secret lacks the ca.crt key, the cycle attempts no patch and
patches no object (so no condition is set), returning the error directly. -/
theorem missingCAKeyNoPatchAttempt :
    (reconcile envMissingKey).err
      = some (ReconcileError.caBundle
        (CABundleError.missingKey "ns-one/secret-one" tlsCAKey)) ∧
    (reconcile envMissingKey).patchAttempted = false ∧
    (reconcile envMissingKey).patched = none ∧
    (reconcile envMissingKey).registry = envMissingKey.registry := by
  decide

/-- Witness for C1 at a concrete valid config list. -/
theorem warmUpReadyWitness :
    isReady (warmUp newRegistry [configOne, configTwo]).1 = true :=
  (warmUp_ready_iff newRegistry [configOne, configTwo] rfl).1.mpr (by decide)

/-- Witness for C2 at a concrete ready registry and malformed config. -/
theorem addAllOrNothingWitness :
    errIsAggregate (registryAdd readyTwo configOneBad).2 = true :=
  (addAllOrNothing readyTwo configOneBad (by decide)
    ⟨handlerBad, by decide, by decide⟩).1

/-- Witness for C5 at a concrete cold and a concrete ready registry. -/
theorem readinessGatesWitness :
    errIsInvalidOp (registryAdd newRegistry configOne).2 = true ∧
    errIsInvalidOp (warmUp readyTwo [configOne]).2 = true := by
  have h1 := readinessGatesLifecycle newRegistry configOne "handler-one"
    "hooks.runtime.cluster.x-k8s.io" "BeforeClusterUpgrade" [configOne]
    (by decide) (by decide)
  have h2 := readinessGatesLifecycle readyTwo configOne "handler-one"
    "hooks.runtime.cluster.x-k8s.io" "BeforeClusterUpgrade" [configOne]
    (by decide) (by decide)
  exact ⟨(h1.1 rfl).1, (h2.2 (by decide)).1⟩

/-- Witness for C6 at a concrete ready registry and group/hook pair. -/
theorem listExactMatchesWitness :
    ∃ l, registryList readyTwo
        { group := "hooks.runtime.cluster.x-k8s.io"
          hook := "BeforeClusterUpgrade" } = Except.ok l ∧
      ∀ r : ExtensionRegistration,
        r ∈ l ↔ (r ∈ readyTwo.items ∧
          r.groupVersionHook.group = "hooks.runtime.cluster.x-k8s.io" ∧
          r.groupVersionHook.hook = "BeforeClusterUpgrade") :=
  (listExactMatches readyTwo "hooks.runtime.cluster.x-k8s.io"
    "BeforeClusterUpgrade" (by decide) (by decide)).2.2 (by decide)

/-- Witness for C7 at a concrete ready registry. -/
theorem removeExactlyOwnedWitness :
    (registryRemove readyTwo configOne).2 = none :=
  (removeDeletesExactlyOwned readyTwo configOne (by decide)).1

/-- Witness for C8 at a concrete ready registry and valid config. -/
theorem addIdempotentWitness :
    lookupReg
      (registryAdd (registryAdd readyTwo configOne).1 configOne).1.items
      "handler-one"
    = lookupReg (registryAdd readyTwo configOne).1.items "handler-one" :=
  addIdempotentPerOwner readyTwo configOne (by decide) (by decide) (by decide)
    "handler-one"

/-- Witness for C10 at a concrete failed-then-valid WarmUp sequence. -/
theorem warmUpRetryWitness :
    (warmUp (warmUp newRegistry [configOneBad]).1 [configOne]).2 = none ∧
    (warmUp (warmUp newRegistry [configOneBad]).1 [configOne]).1.ready
      = true := by
  have h := warmUpRetryableAfterFailure newRegistry [configOneBad] [configOne]
    rfl (by decide) (by decide)
  exact ⟨h.2.2.2.1, h.2.2.2.2⟩

/-- Witness for C9 at a concrete not-ready environment. -/
theorem requeueNotReadyWitness :
    reconcile envNotReady
      = { requeue := true, err := none, fetched := false,
          discoveryCalled := false, patchAttempted := false, patched := none,
          registerCalled := false, registry := envNotReady.registry } :=
  reconcileRequeuesWhenNotReady envNotReady rfl

/-- Witness for C4 at a concrete environment with failing discovery. -/
theorem discoveryFailureWitness :
    (reconcile envDiscFail).err.isSome = true ∧
    (reconcile envDiscFail).patchAttempted = true ∧
    (reconcile envDiscFail).registerCalled = false ∧
    (reconcile envDiscFail).registry = envDiscFail.registry := by
  have h := discoveryFailureKeepsState envDiscFail configTwo configTwo
    "connection refused" (by decide) rfl rfl rfl rfl rfl
  exact ⟨h.1, h.2.1, h.2.2.2.1, h.2.2.2.2⟩

/-- Witness for C3 (amended) at the concrete missing-key environment. -/
theorem missingCAKeyWitness :
    reconcile envMissingKey
      = { requeue := false,
          err := some (ReconcileError.caBundle
            (CABundleError.missingKey "ns-one/secret-one" tlsCAKey)),
          fetched := true, discoveryCalled := false, patchAttempted := false,
          patched := none, registerCalled := false,
          registry := envMissingKey.registry } :=
  missingCAKeyAbortsCycle envMissingKey configAnnotated "ns-one/secret-one"
    secretNoCA (by decide) rfl rfl rfl rfl (by decide) (by decide)
    (by decide) rfl

end ClusterAPI
